import Mathlib

/-!
Formal verification of the cbrescraper crawl-and-extract engine.

The development is a shallow embedding of the Python sources
crawler_app/scraper.py and crawler_app/vector_db.py.  Strings are
modelled as Lean Strings (lists of Unicode code points, matching
Python str indexing); browser/DOM interactions are modelled by passing
the values the page queries would return as explicit environment
records; the Pinecone content store is modelled as an explicit state
threaded through the operations.  Each definition carries a comment
naming the source lines it embeds.
-/

/-! ### Python string primitives used by the sources -/

/-- Python whitespace class used by str.strip and the regex class of
whitespace: space, tab, newline, carriage return, vertical tab, form feed. -/
def pyIsSpace (c : Char) : Bool :=
  c = ' ' || c = '\t' || c = '\n' || c = '\r' || c = '\x0b' || c = '\x0c'

/-- Python str.strip on a list of code points. -/
def pyStrip (l : List Char) : List Char :=
  ((l.dropWhile pyIsSpace).reverse.dropWhile pyIsSpace).reverse

/-- Python str.strip at String level. -/
def pyStripS (s : String) : String :=
  (pyStrip s.data).asString

/-- First index at which pat occurs as a contiguous sublist of l
(Python str.find, returning none for -1). -/
def findSubstr (pat : List Char) : List Char → Option Nat
  | [] => if pat = [] then some 0 else none
  | c :: rest =>
    if pat.isPrefixOf (c :: rest) then some 0
    else (findSubstr pat rest).map (· + 1)

/-- Python substring containment test (the in operator on str). -/
def containsSubS (pat s : String) : Bool :=
  (findSubstr pat.data s.data).isSome

/-- Python str.replace: replaces every non-overlapping occurrence of
pat (assumed non-empty at all call sites) by rep, scanning left to right. -/
def replaceSub (pat rep : List Char) : List Char → List Char
  | [] => []
  | c :: rest =>
    if pat ≠ [] ∧ pat.isPrefixOf (c :: rest) then
      rep ++ replaceSub pat rep (rest.drop (pat.length - 1))
    else
      c :: replaceSub pat rep rest
termination_by l => l.length
decreasing_by
  · simp only [List.length_drop, List.length_cons]
    omega
  · simp only [List.length_cons]
    omega

/-- Python str.replace at String level. -/
def pyReplace (s pat rep : String) : String :=
  (replaceSub pat.data rep.data s.data).asString

/-- Python str.split(sep) for a single-character separator:
splitting the empty string yields one empty field, and every
separator occurrence opens a new field. -/
def splitOnChar (sep : Char) : List Char → List (List Char)
  | [] => [[]]
  | c :: rest =>
    match splitOnChar sep rest with
    | [] => if c = sep then [[], []] else [[c]]
    | h :: t => if c = sep then [] :: h :: t else (c :: h) :: t

/-- Python re.split with the whitespace-run pattern: splits on maximal
runs of whitespace; a string with no whitespace yields itself as the
single field. -/
def reSplitWs : List Char → List Char → List (List Char)
  | cur, [] => [cur.reverse]
  | cur, c :: rest =>
    if pyIsSpace c then cur.reverse :: reSplitWs [] (rest.dropWhile pyIsSpace)
    else reSplitWs (c :: cur) rest
termination_by _ l => l.length
decreasing_by
  · have := (List.dropWhile_sublist (l := rest) pyIsSpace).length_le
    simp only [List.length_cons]
    omega
  · simp only [List.length_cons]
    omega

/-- Python truthiness-based default: a or b is b when a is None or
the empty string (the only falsy strings here), else a. -/
def pyOr (o : Option String) (d : String) : String :=
  match o with
  | none => d
  | some s => if s = "" then d else s

/-! ### Normalizer: GenericCrawler.format_phone (scraper.py lines 33-65) -/

/-- The character class of the Python regex digit class restricted to
the ASCII range (the input has already had all non-ASCII characters
removed when this filter runs, so the restriction is exact). -/
def pyIsDigit (c : Char) : Bool :=
  decide (48 ≤ c.toNat) && decide (c.toNat ≤ 57)

/-- Characters kept by the second re.sub of format_phone: digits and
the plus sign. -/
def pyPlusDigit (c : Char) : Bool :=
  pyIsDigit c || c = '+'

/-- Characters kept by the first re.sub of format_phone: the ASCII
range 0x00-0x7F. -/
def pyIsAscii (c : Char) : Bool :=
  decide (c.toNat ≤ 127)

/-- The code points of the literal "Not Found" rejected up front by
format_phone. -/
def notFoundChars : List Char := "Not Found".data

/-- The two re.sub cleaning passes of format_phone (scraper.py lines
38-41): strip all non-ASCII characters, then everything but digits
and plus. -/
def phoneDigits (l : List Char) : List Char :=
  (l.filter pyIsAscii).filter pyPlusDigit

/-- The 426-to-425 area-code typo substitution of format_phone
(scraper.py lines 51-56), including the 1426 variant. -/
def phoneFix426 (digits : List Char) : List Char :=
  if digits.take 3 = ['4', '2', '6'] then ['4', '2', '5'] ++ digits.drop 3
  else if digits.take 4 = ['1', '4', '2', '6'] then ['1', '4', '2', '5'] ++ digits.drop 4
  else digits

/-- GenericCrawler.format_phone (scraper.py lines 33-65), code-point
level.  Empty or "Not Found" input yields none (Python None); cleaning
passes; a result already starting with plus is returned unchanged; the
426/1426 typo substitution; then length-based prefixing. -/
def formatPhoneChars (l : List Char) : Option (List Char) :=
  if l = [] ∨ l = notFoundChars then none
  else if phoneDigits l = [] then none
  else if (phoneDigits l).head? = some '+' then some (phoneDigits l)
  else if (phoneFix426 (phoneDigits l)).length = 10 then
    some ('+' :: '1' :: phoneFix426 (phoneDigits l))
  else if (phoneFix426 (phoneDigits l)).length = 11 ∧
      (phoneFix426 (phoneDigits l)).head? = some '1' then
    some ('+' :: phoneFix426 (phoneDigits l))
  else if (phoneFix426 (phoneDigits l)).length > 10 then
    some ('+' :: phoneFix426 (phoneDigits l))
  else
    some ('+' :: phoneFix426 (phoneDigits l))

/-- GenericCrawler.format_phone at String level.  The none input case
models a Python None argument (falsy, like the empty string). -/
def format_phone (o : Option String) : Option String :=
  match o with
  | none => none
  | some s => (formatPhoneChars s.data).map List.asString

/-! ### Properties of format_phone -/

theorem toList_asString (l : List Char) : l.asString.data = l := rfl

theorem plusDigit_ascii (c : Char) (h : pyPlusDigit c = true) : pyIsAscii c = true := by
  simp only [pyPlusDigit, pyIsDigit, pyIsAscii, Bool.or_eq_true, Bool.and_eq_true,
    decide_eq_true_eq] at *
  rcases h with ⟨_, h2⟩ | h
  · omega
  · subst h
    decide

theorem mem_phoneDigits (l : List Char) (c : Char) (h : c ∈ phoneDigits l) :
    pyPlusDigit c = true :=
  (List.mem_filter.mp h).2

theorem mem_phoneFix426 (digits : List Char) (c : Char) (h : c ∈ phoneFix426 digits) :
    c ∈ digits ∨ pyPlusDigit c = true := by
  unfold phoneFix426 at h
  split at h
  · rcases List.mem_append.mp h with h4 | h4
    · simp only [List.mem_cons, List.not_mem_nil, or_false] at h4
      rcases h4 with rfl | rfl | rfl <;> (right; decide)
    · exact Or.inl (List.mem_of_mem_drop h4)
  · split at h
    · rcases List.mem_append.mp h with h4 | h4
      · simp only [List.mem_cons, List.not_mem_nil, or_false] at h4
        rcases h4 with rfl | rfl | rfl | rfl <;> (right; decide)
      · exact Or.inl (List.mem_of_mem_drop h4)
    · exact Or.inl h

/-- Every successful output of formatPhoneChars starts with a plus and
consists only of digit/plus characters. -/
theorem formatPhoneChars_shape (l m : List Char) (h : formatPhoneChars l = some m) :
    m.head? = some '+' ∧ ∀ c ∈ m, pyPlusDigit c = true := by
  have hfix : ∀ c ∈ phoneFix426 (phoneDigits l), pyPlusDigit c = true := by
    intro c hc
    rcases mem_phoneFix426 _ c hc with h4 | h4
    · exact mem_phoneDigits l c h4
    · exact h4
  unfold formatPhoneChars at h
  split at h
  · exact absurd h (by simp)
  split at h
  · exact absurd h (by simp)
  split at h
  · rename_i hplus
    obtain rfl : phoneDigits l = m := by simpa using h
    exact ⟨hplus, fun c hc => mem_phoneDigits l c hc⟩
  split at h
  · obtain rfl : _ = m := Option.some.inj h
    refine ⟨rfl, fun c hc => ?_⟩
    simp only [List.mem_cons] at hc
    rcases hc with rfl | rfl | hc
    · decide
    · decide
    · exact hfix c hc
  split at h
  · obtain rfl : _ = m := Option.some.inj h
    refine ⟨rfl, fun c hc => ?_⟩
    simp only [List.mem_cons] at hc
    rcases hc with rfl | hc
    · decide
    · exact hfix c hc
  split at h
  · obtain rfl : _ = m := Option.some.inj h
    refine ⟨rfl, fun c hc => ?_⟩
    simp only [List.mem_cons] at hc
    rcases hc with rfl | hc
    · decide
    · exact hfix c hc
  · obtain rfl : _ = m := Option.some.inj h
    refine ⟨rfl, fun c hc => ?_⟩
    simp only [List.mem_cons] at hc
    rcases hc with rfl | hc
    · decide
    · exact hfix c hc

/-- A successful output of formatPhoneChars is a fixed point. -/
theorem formatPhoneChars_fixed (l m : List Char) (h : formatPhoneChars l = some m) :
    formatPhoneChars m = some m := by
  obtain ⟨hhead, hmem⟩ := formatPhoneChars_shape l m h
  have hne : m ≠ [] := by
    intro hnil
    rw [hnil] at hhead
    simp at hhead
  have hnf : m ≠ notFoundChars := by
    intro heq
    rw [heq] at hhead
    simp [notFoundChars] at hhead
  have hdig : phoneDigits m = m := by
    unfold phoneDigits
    rw [List.filter_eq_self.mpr fun c hc => plusDigit_ascii c (hmem c hc)]
    exact List.filter_eq_self.mpr hmem
  unfold formatPhoneChars
  rw [if_neg (by simp [hne, hnf]), hdig, if_neg hne, if_pos hhead]

/-- C7: formatPhone is idempotent: formatPhone (formatPhone x) equals
formatPhone x for every input string x (scraper.py lines 33-65). -/
theorem format_phone_idempotent (s : String) :
    format_phone (format_phone (some s)) = format_phone (some s) := by
  cases h : formatPhoneChars s.data with
  | none => simp [format_phone, h]
  | some m =>
    simp only [format_phone, h, Option.map_some']
    rw [toList_asString, formatPhoneChars_fixed s.data m h]
    rfl

/-- C10: every non-None return value of format_phone starts with th
plus character (scraper.py lines 33-65: each return branch either
returns a string already starting with plus or prepends one). -/
theorem format_phone_leading_plus (o : Option String) (y : String)
    (h : format_phone o = some y) : y.data.head? = some '+' := by
  cases o with
  | none => exact absurd h (by simp [format_phone])
  | some s =>
    simp only [format_phone] at h
    cases hm : formatPhoneChars s.data with
    | none => rw [hm] at h; exact absurd h (by simp)
    | some m =>
      rw [hm] at h
      obtain rfl : m.asString = y := by simpa using h
      rw [toList_asString]
      exact (formatPhoneChars_shape s.data m hm).1

/-- Witness for C10 at a concrete input. -/
theorem format_phone_leading_plus_witness : ("+15551234567").data.head? = some '+' :=
  format_phone_leading_plus (some "5551234567") "+15551234567" (by decide)

/-- C6 counterexample: for the 10-ASCII-digit input "4261234567",
format_phone applies the 426-to-425 typo substitution before the
length-based prefixing, so the result is not "+1" followed by the
input (scraper.py lines 51-59). -/
theorem format_phone_ten_digit_counterexample :
    format_phone (some "4261234567") = some "+14251234567" ∧
      "+14251234567" ≠ "+1" ++ "4261234567" := by
  constructor
  · decide
  · decide

/-- C6 amended: for every input string of exactly 10 ASCII digits that
does not start with the digit sequence 426 or 1426, format_phone
returns "+1" followed by the input (scraper.py lines 51-59: the
426/1426 substitution precedes the 10-digit branch, so it must be
excluded by hypothesis). -/
theorem format_phone_ten_digits (s : String)
    (hlen : s.data.length = 10)
    (hdig : ∀ c ∈ s.data, pyIsDigit c = true)
    (h426 : s.data.take 3 ≠ ['4', '2', '6'])
    (h1426 : s.data.take 4 ≠ ['1', '4', '2', '6']) :
    format_phone (some s) = some ("+1" ++ s) := by
  have hne : s.data ≠ [] := by
    intro h
    rw [h] at hlen
    simp at hlen
  have hnf : s.data ≠ notFoundChars := by
    intro h
    have : s.data.length = notFoundChars.length := by rw [h]
    rw [hlen] at this
    simp [notFoundChars] at this
  have hascii : s.data.filter pyIsAscii = s.data :=
    List.filter_eq_self.mpr fun c hc => by
      have := hdig c hc
      simp only [pyIsDigit, Bool.and_eq_true, decide_eq_true_eq] at this
      simp only [pyIsAscii, decide_eq_true_eq]
      omega
  have hdigits : phoneDigits s.data = s.data := by
    unfold phoneDigits
    rw [hascii]
    exact List.filter_eq_self.mpr fun c hc => by simp [pyPlusDigit, hdig c hc]
  have hfix : phoneFix426 s.data = s.data := by
    unfold phoneFix426
    rw [if_neg h426, if_neg h1426]
  have hnotplus : s.data.head? ≠ some '+' := by
    intro h
    cases hl : s.data with
    | nil => exact hne hl
    | cons c rest =>
      rw [hl] at h
      simp only [List.head?_cons, Option.some.injEq] at h
      subst h
      have := hdig '+' (by rw [hl]; exact List.mem_cons_self _ _)
      simp [pyIsDigit] at this
  have hout : ('+' :: '1' :: s.data).asString = "+1" ++ s := by
    apply String.ext
    rw [toList_asString]
    rfl
  simp only [format_phone]
  unfold formatPhoneChars
  rw [if_neg (by simp [hne, hnf]), hdigits, if_neg hne, if_neg hnotplus, hfix, if_pos hlen]
  rw [Option.map_some', hout]

/-- Witness for the amended C6 at a concrete input. -/
theorem format_phone_ten_digits_witness :
    format_phone (some "2065551234") = some ("+1" ++ "2065551234") :=
  format_phone_ten_digits "2065551234" (by decide) (by decide) (by decide) (by decide)

/-! ### Transaction parsing (scraper.py lines 584-629, inside
GenericCrawler.scrape_details step 5) -/

/-- A parsed transaction entry: either a structured 4-field tuple or a
raw text line (the Python code stores either dicts or plain strings in
the same list). -/
inductive TxEntry where
  | structured (name location txType size : String)
  | line (text : String)
deriving DecidableEq, Repr

/-- The start marker of the transaction window (scraper.py line 592). -/
def txStartMarker : String := "Significant Transactions"

/-- The end marker of the transaction window (scraper.py line 593). -/
def txEndMarker : String := "Clients Represented"

/-- The newline join of the harvested transaction text blobs
(scraper.py line 589). -/
def txBlob (raw_tx : List String) : List Char :=
  (String.intercalate "\n" raw_tx).data

/-- The non-empty stripped lines of the text captured between the two
markers, or to end of text when the end marker is absent (scraper.py
lines 597-607): chunk = blob[start_idx:end_idx] with start_idx just
past the start marker and end_idx the first end-marker hit from there,
then lines = the stripped newline-split fields that are non-empty. -/
def txLinesOf (raw_tx : List String) : List String :=
  match findSubstr txStartMarker.data (txBlob raw_tx) with
  | none => []
  | some i =>
    let start_idx := i + txStartMarker.data.length
    let tail := (txBlob raw_tx).drop start_idx
    let chunk :=
      match findSubstr txEndMarker.data tail with
      | none => tail
      | some j => tail.take j
    (((splitOnChar '\n' chunk).map pyStrip).map List.asString).filter (· ≠ "")

/-- The 4-line grouping of scraper.py lines 610-619: consecutive
blocks of four lines become Name/Location/Type/Size tuples.  The
source indexes lines[i..i+3] for i in range(0, len, 4) under a guard
that the length is a positive multiple of 4, where both definitions
agree. -/
def txGroups : List String → List TxEntry
  | a :: b :: c :: d :: rest => .structured a b c d :: txGroups rest
  | _ => []

/-- The concatenation of the fields of a grouped transaction list, used
to state that grouping is consecutive and complete. -/
def txFlatten : List TxEntry → List String
  | [] => []
  | .structured a b c d :: rest => a :: b :: c :: d :: txFlatten rest
  | .line s :: rest => s :: txFlatten rest

/-- The transaction-blob parsing of scraper.py lines 584-629: an empty
harvest stays empty; a blob without the start marker is kept raw; a
windowed blob is grouped in fours exactly when the non-empty stripped
line count is a positive multiple of 4, and kept as unstructured lines
otherwise. -/
def parse_transactions (raw_tx : List String) : List TxEntry :=
  if raw_tx.isEmpty then []
  else
    match findSubstr txStartMarker.data (txBlob raw_tx) with
    | none => raw_tx.map .line
    | some _ =>
      let lines := txLinesOf raw_tx
      if 0 < lines.length ∧ lines.length % 4 = 0 then txGroups lines
      else lines.map .line

theorem txGroups_length : ∀ l : List String, l.length % 4 = 0 →
    (txGroups l).length = l.length / 4
  | [], _ => by simp [txGroups]
  | [a], h => by simp at h
  | [a, b], h => by simp at h
  | [a, b, c], h => by simp at h
  | a :: b :: c :: d :: rest, h => by
    have h4 : rest.length % 4 = 0 := by
      simp only [List.length_cons] at h
      omega
    simp only [txGroups, List.length_cons, txGroups_length rest h4]
    omega

theorem txGroups_flatten : ∀ l : List String, l.length % 4 = 0 →
    txFlatten (txGroups l) = l
  | [], _ => by simp [txGroups, txFlatten]
  | [a], h => by simp at h
  | [a, b], h => by simp at h
  | [a, b, c], h => by simp at h
  | a :: b :: c :: d :: rest, h => by
    have h4 : rest.length % 4 = 0 := by
      simp only [List.length_cons] at h
      omega
    simp [txGroups, txFlatten, txGroups_flatten rest h4]

/-- C8: for a transaction text block containing the start marker, if
the non-empty stripped lines of the marker-bounded window number a
positive exact multiple of 4 they are grouped into consecutive
Name/Location/Type/Size tuples (exactly lines/4 of them, flattening
back to the very line list); otherwise every line is kept as an
unstructured text entry (scraper.py lines 584-629). -/
theorem parse_transactions_grouping (raw_tx : List String) (i : Nat)
    (hne : raw_tx ≠ [])
    (hfind : findSubstr txStartMarker.data (txBlob raw_tx) = some i) :
    (0 < (txLinesOf raw_tx).length → (txLinesOf raw_tx).length % 4 = 0 →
      parse_transactions raw_tx = txGroups (txLinesOf raw_tx) ∧
      (txGroups (txLinesOf raw_tx)).length = (txLinesOf raw_tx).length / 4 ∧
      txFlatten (txGroups (txLinesOf raw_tx)) = txLinesOf raw_tx) ∧
    (¬ (0 < (txLinesOf raw_tx).length ∧ (txLinesOf raw_tx).length % 4 = 0) →
      parse_transactions raw_tx = (txLinesOf raw_tx).map .line) := by
  constructor
  · intro hpos hmod
    refine ⟨?_, txGroups_length _ hmod, txGroups_flatten _ hmod⟩
    unfold parse_transactions
    rw [if_neg (by simp [hne]), hfind]
    simp only [if_pos (And.intro hpos hmod)]
  · intro hnot
    unfold parse_transactions
    rw [if_neg (by simp [hne]), hfind]
    simp only [if_neg hnot]

/-- Witness for C8: a blob whose window splits into exactly 8 lines
produces exactly 2 structured tuples, and one splitting into 7 lines
produces 7 unstructured line entries. -/
theorem parse_transactions_grouping_witness :
    parse_transactions ["Significant Transactions\nA1\nL1\nT1\nS1\nA2\nL2\nT2\nS2"] =
      txGroups (txLinesOf ["Significant Transactions\nA1\nL1\nT1\nS1\nA2\nL2\nT2\nS2"]) ∧
    parse_transactions ["Significant Transactions\nA1\nL1\nT1\nS1\nA2\nL2\nT2"] =
      (txLinesOf ["Significant Transactions\nA1\nL1\nT1\nS1\nA2\nL2\nT2"]).map .line := by
  constructor
  · exact ((parse_transactions_grouping
      ["Significant Transactions\nA1\nL1\nT1\nS1\nA2\nL2\nT2\nS2"] 0
      (by decide) (by decide)).1 (by decide) (by decide)).1
  · exact (parse_transactions_grouping
      ["Significant Transactions\nA1\nL1\nT1\nS1\nA2\nL2\nT2"] 0
      (by decide) (by decide)).2 (by decide)

/-! ### Link Enumerator: GenericCrawler.get_links (scraper.py lines 96-235)

The browser is modelled by the data its queries return: each card
carries the href attribute and inner text of the elements the source
inspects, and each page carries its cards plus whether the Next
control was found and visible.  Clicking Next advances to the next
page of the environment list.  The query-parameter preprocessing of
lines 105-118 only rewrites the directory URL string, which the model
takes as an opaque input (urljoin is likewise passed in as an opaque
resolver), so it is orthogonal to the harvesting loop embedded here. -/

/-- An element as seen through get_attribute and inner_text: the href
attribute (none when absent) and the stripped inner text. -/
structure LinkEl where
  href : Option String
  text : String
deriving DecidableEq, Repr

/-- One result card of the directory page: the card itself viewed as a
link element, the optional child matched by the link selector, the
optional stripped text of the name-selector match, and the optional
stripped text of the no-profile fallback title element
(p.cbre-c-listCards title, scraper.py line 176). -/
structure Card where
  selfLink : LinkEl
  childLink : Option LinkEl
  nameSelText : Option String
  fallbackTitleText : Option String
deriving DecidableEq, Repr

/-- One directory page: its cards and whether a visible Next control
exists (scraper.py lines 200-203). -/
structure Page where
  cards : List Card
  nextVisible : Bool
deriving DecidableEq, Repr

/-- The selector configuration of get_links: whether a link selector
was given (a None or empty link_selector means the card itself is the
anchor, line 155), whether a name selector was given, and whether the
card selector is the default CoveoResult one that enables the
no-profile name fallback (line 175). -/
structure LinksConfig where
  linkSelectorGiven : Bool
  nameSelectorGiven : Bool
  cardSelectorIsCoveo : Bool
deriving DecidableEq, Repr

/-- A link candidate as built by get_links (scraper.py line 151):
a Name and a URL. -/
structure Item where
  name : String
  url : String
deriving DecidableEq, Repr

/-- The per-card resolution of scraper.py lines 151-182: resolve the
link element (child of the card, or the card itself when no link
selector is given); when it carries a non-empty href, the URL is the
href joined against the directory URL and the name comes from the name
selector (if given) or the link text (only when the link is a child of
the card); otherwise the no-profile fallback name applies in
CoveoResult mode; an empty name becomes the sentinel Unknown. -/
def resolveCard (cfg : LinksConfig) (directoryUrl : String)
    (ujoin : String → String → String) (c : Card) : Item :=
  let fallbackName : String :=
    if cfg.cardSelectorIsCoveo then
      match c.fallbackTitleText with
      | some t => t
      | none => ""
    else ""
  let raw : Item :=
    match (if cfg.linkSelectorGiven then c.childLink else some c.selfLink) with
    | some el =>
      match el.href with
      | some h =>
        if h ≠ "" then
          { name :=
              if cfg.nameSelectorGiven then
                match c.nameSelText with
                | some t => t
                | none => ""
              else if cfg.linkSelectorGiven then el.text
              else ""
            url := ujoin directoryUrl h }
        else { name := fallbackName, url := "" }
      | none => { name := fallbackName, url := "" }
    | none => { name := fallbackName, url := "" }
  { raw with name := if raw.name = "" then "Unknown" else raw.name }

/-- The Python truthiness check guarding the result limit (scraper.py
lines 147 and 195): a None or zero limit never triggers. -/
def limitHit (lim : Option Nat) (results : List Item) : Bool :=
  match lim with
  | none => false
  | some l => decide (0 < l) && decide (l ≤ results.length)


/-- The append step of scraper.py lines 184-191: a resolved candidate
is kept only when it has a URL, and is deduplicated against all
already-collected candidates on the (name, url) pair before being
appended. -/
def dedupAppend (acc : List Item) (item : Item) : List Item :=
  if item.url ≠ "" ∧ ¬ (acc.any fun r => r.name = item.name ∧ r.url = item.url) then
    acc ++ [item]
  else acc

/-- The per-page card loop of scraper.py lines 145-191: before each
card the limit is checked (returning the results as collected so far);
then the card is resolved and conditionally appended. -/
def harvestCards (cfg : LinksConfig) (dirUrl : String)
    (ujoin : String → String → String) (lim : Option Nat) :
    List Item → List Card → List Item
  | acc, [] => acc
  | acc, c :: cs =>
    if limitHit lim acc then acc
    else harvestCards cfg dirUrl ujoin lim
      (dedupAppend acc (resolveCard cfg dirUrl ujoin c)) cs

/-- The pagination loop of scraper.py lines 132-231, returning the
collected results and the number of pages harvested.  After a page is
harvested the limit is checked (stopping before any further page is
requested); otherwise pagination continues exactly when a visible Next
control exists and the environment serves a further page, bounded by
the safety cap of 50 pages (line 223). -/
def paginate (cfg : LinksConfig) (dirUrl : String)
    (ujoin : String → String → String) (lim : Option Nat) :
    List Item → Nat → List Page → List Item × Nat
  | acc, _, [] => (acc, 0)
  | acc, pageNum, p :: rest =>
    if limitHit lim (harvestCards cfg dirUrl ujoin lim acc p.cards) then
      (harvestCards cfg dirUrl ujoin lim acc p.cards, 1)
    else if p.nextVisible && !rest.isEmpty then
      if pageNum + 1 > 50 then (harvestCards cfg dirUrl ujoin lim acc p.cards, 1)
      else
        ((paginate cfg dirUrl ujoin lim
            (harvestCards cfg dirUrl ujoin lim acc p.cards) (pageNum + 1) rest).1,
         (paginate cfg dirUrl ujoin lim
            (harvestCards cfg dirUrl ujoin lim acc p.cards) (pageNum + 1) rest).2 + 1)
    else (harvestCards cfg dirUrl ujoin lim acc p.cards, 1)

/-- GenericCrawler.get_links (scraper.py lines 96-235): run the
pagination loop from an empty result list on page 1 over the pages the
environment serves.  Returns the candidate list and the number of
pages harvested. -/
def get_links (cfg : LinksConfig) (dirUrl : String)
    (ujoin : String → String → String) (lim : Option Nat)
    (pages : List Page) : List Item × Nat :=
  paginate cfg dirUrl ujoin lim [] 1 pages

theorem limitHit_none (acc : List Item) : limitHit none acc = false := rfl

theorem limitHit_some_true (limit : Nat) (acc : List Item) (h0 : 0 < limit)
    (hge : limit ≤ acc.length) : limitHit (some limit) acc = true := by
  simp [limitHit, h0, hge]

theorem limitHit_some_false (limit : Nat) (acc : List Item)
    (hlt : acc.length < limit) : limitHit (some limit) acc = false := by
  simp only [limitHit, Bool.and_eq_false_iff, decide_eq_false_iff_not, not_le]
  right
  exact hlt

theorem dedupAppend_extend (acc : List Item) (item : Item) :
    ∃ ext, dedupAppend acc item = acc ++ ext := by
  unfold dedupAppend
  split
  · exact ⟨[item], rfl⟩
  · exact ⟨[], (List.append_nil acc).symm⟩

theorem dedupAppend_length (acc : List Item) (item : Item) :
    (dedupAppend acc item).length ≤ acc.length + 1 := by
  unfold dedupAppend
  split <;> simp

theorem harvestCards_extend (cfg : LinksConfig) (dirUrl : String)
    (ujoin : String → String → String) (lim : Option Nat) :
    ∀ (cards : List Card) (acc : List Item),
      ∃ ext, harvestCards cfg dirUrl ujoin lim acc cards = acc ++ ext
  | [], acc => ⟨[], (List.append_nil acc).symm⟩
  | c :: cs, acc => by
    rw [harvestCards]
    split
    · exact ⟨[], (List.append_nil acc).symm⟩
    · obtain ⟨e0, he0⟩ := dedupAppend_extend acc (resolveCard cfg dirUrl ujoin c)
      obtain ⟨e1, he1⟩ := harvestCards_extend cfg dirUrl ujoin lim cs
        (dedupAppend acc (resolveCard cfg dirUrl ujoin c))
      exact ⟨e0 ++ e1, by rw [he1, he0, List.append_assoc]⟩

theorem paginate_extend (cfg : LinksConfig) (dirUrl : String)
    (ujoin : String → String → String) (lim : Option Nat) :
    ∀ (pages : List Page) (acc : List Item) (n : Nat),
      ∃ ext, (paginate cfg dirUrl ujoin lim acc n pages).1 = acc ++ ext
  | [], acc, n => ⟨[], (List.append_nil acc).symm⟩
  | p :: rest, acc, n => by
    obtain ⟨e1, he1⟩ := harvestCards_extend cfg dirUrl ujoin lim p.cards acc
    rw [paginate]
    split
    · exact ⟨e1, he1⟩
    · split
      · split
        · exact ⟨e1, he1⟩
        · obtain ⟨e2, he2⟩ := paginate_extend cfg dirUrl ujoin lim rest
            (harvestCards cfg dirUrl ujoin lim acc p.cards) (n + 1)
          exact ⟨e1 ++ e2, by
            show (paginate cfg dirUrl ujoin lim
              (harvestCards cfg dirUrl ujoin lim acc p.cards) (n + 1) rest).1 = _
            rw [he2, he1, List.append_assoc]⟩
      · exact ⟨e1, he1⟩

theorem harvestCards_take (cfg : LinksConfig) (dirUrl : String)
    (ujoin : String → String → String) (limit : Nat) (hpos : 0 < limit) :
    ∀ (cards : List Card) (acc : List Item), acc.length ≤ limit →
      harvestCards cfg dirUrl ujoin (some limit) acc cards =
        (harvestCards cfg dirUrl ujoin none acc cards).take limit
  | [], acc, hle => by
    simp only [harvestCards]
    exact (List.take_of_length_le hle).symm
  | c :: cs, acc, hle => by
    rcases Nat.lt_or_ge acc.length limit with hlt | hge
    · rw [harvestCards, harvestCards, limitHit_some_false limit acc hlt, limitHit_none]
      simp only [Bool.false_eq_true, if_false]
      apply harvestCards_take cfg dirUrl ujoin limit hpos cs
      have := dedupAppend_length acc (resolveCard cfg dirUrl ujoin c)
      omega
    · have heq : acc.length = limit := Nat.le_antisymm hle hge
      rw [harvestCards, limitHit_some_true limit acc hpos hge]
      simp only [if_true]
      obtain ⟨ext, hext⟩ := harvestCards_extend cfg dirUrl ujoin none (c :: cs) acc
      rw [hext, ← heq, List.take_left]

theorem paginate_take (cfg : LinksConfig) (dirUrl : String)
    (ujoin : String → String → String) (limit : Nat) (hpos : 0 < limit) :
    ∀ (pages : List Page) (acc : List Item) (n : Nat), acc.length ≤ limit →
      (paginate cfg dirUrl ujoin (some limit) acc n pages).1 =
        (paginate cfg dirUrl ujoin none acc n pages).1.take limit
  | [], acc, n, hle => by
    simp only [paginate]
    exact (List.take_of_length_le hle).symm
  | p :: rest, acc, n, hle => by
    have hh := harvestCards_take cfg dirUrl ujoin limit hpos p.cards acc hle
    rcases Nat.lt_or_ge
        (harvestCards cfg dirUrl ujoin (some limit) acc p.cards).length limit with hlt | hge
    · have hNlen : (harvestCards cfg dirUrl ujoin none acc p.cards).length < limit := by
        rw [hh, List.length_take] at hlt
        omega
      have hEq : harvestCards cfg dirUrl ujoin (some limit) acc p.cards =
          harvestCards cfg dirUrl ujoin none acc p.cards := by
        rw [hh]
        exact List.take_of_length_le (Nat.le_of_lt hNlen)
      rw [paginate, paginate, hEq,
        limitHit_some_false limit _ hNlen, limitHit_none]
      simp only [Bool.false_eq_true, if_false]
      cases hnv : (p.nextVisible && !rest.isEmpty) with
      | false =>
        simp only [Bool.false_eq_true, if_false]
        exact (List.take_of_length_le (Nat.le_of_lt hNlen)).symm
      | true =>
        simp only [if_true]
        by_cases h50 : n + 1 > 50
        · rw [if_pos h50, if_pos h50]
          exact (List.take_of_length_le (Nat.le_of_lt hNlen)).symm
        · rw [if_neg h50, if_neg h50]
          exact paginate_take cfg dirUrl ujoin limit hpos rest
            (harvestCards cfg dirUrl ujoin none acc p.cards) (n + 1)
            (Nat.le_of_lt hNlen)
    · have hNlen : limit ≤ (harvestCards cfg dirUrl ujoin none acc p.cards).length := by
        rw [hh, List.length_take] at hge
        omega
      rw [paginate, paginate,
        limitHit_some_true limit _ hpos hge, limitHit_none]
      simp only [Bool.false_eq_true, if_false, if_true]
      have htake : ∀ z ext, z = harvestCards cfg dirUrl ujoin none acc p.cards ++ ext →
          z.take limit = harvestCards cfg dirUrl ujoin (some limit) acc p.cards := by
        intro z ext hz
        rw [hz, List.take_append_of_le_length hNlen, ← hh]
      cases hnv : (p.nextVisible && !rest.isEmpty) with
      | false =>
        simp only [Bool.false_eq_true, if_false]
        exact (htake _ [] (List.append_nil _).symm).symm
      | true =>
        simp only [if_true]
        by_cases h50 : n + 1 > 50
        · rw [if_pos h50]
          exact (htake _ [] (List.append_nil _).symm).symm
        · rw [if_neg h50]
          obtain ⟨ext, hext⟩ := paginate_extend cfg dirUrl ujoin none rest
            (harvestCards cfg dirUrl ujoin none acc p.cards) (n + 1)
          exact (htake _ ext hext).symm

/-- C4: for every directory crawl with a configured positive result
limit, get_links returns at most limit candidates; the limited run is
exactly the first limit candidates of the unlimited run (discovery
order, and exactly limit of them whenever the limit is reached); and
whenever the limit is already reached after harvesting the current
page, pagination stops with that single page harvested, requesting no
further page (scraper.py lines 144-197). -/
theorem get_links_respects_limit (cfg : LinksConfig) (dirUrl : String)
    (ujoin : String → String → String) (limit : Nat) (pages : List Page)
    (hpos : 0 < limit) :
    (get_links cfg dirUrl ujoin (some limit) pages).1.length ≤ limit ∧
    (get_links cfg dirUrl ujoin (some limit) pages).1 =
      (get_links cfg dirUrl ujoin none pages).1.take limit ∧
    (∀ (acc : List Item) (pageNum : Nat) (p : Page) (rest : List Page),
      limit ≤ (harvestCards cfg dirUrl ujoin (some limit) acc p.cards).length →
      (paginate cfg dirUrl ujoin (some limit) acc pageNum (p :: rest)).2 = 1) := by
  have htk : (get_links cfg dirUrl ujoin (some limit) pages).1 =
      (get_links cfg dirUrl ujoin none pages).1.take limit :=
    paginate_take cfg dirUrl ujoin limit hpos pages [] 1 (by simp)
  refine ⟨?_, htk, ?_⟩
  · rw [htk]
    exact List.length_take_le limit _
  · intro acc pageNum p rest hreach
    rw [paginate, if_pos (limitHit_some_true limit _ hpos hreach)]

/-- Witness for C4 at a concrete configuration, limit and page list. -/
theorem get_links_respects_limit_witness :
    (get_links ⟨true, false, true⟩ "d" (fun _ h => h) (some 1)
      [⟨[⟨⟨none, ""⟩, some ⟨some "u1", "n1"⟩, none, none⟩,
         ⟨⟨none, ""⟩, some ⟨some "u2", "n2"⟩, none, none⟩], false⟩]).1.length ≤ 1 :=
  (get_links_respects_limit ⟨true, false, true⟩ "d" (fun _ h => h) 1
    [⟨[⟨⟨none, ""⟩, some ⟨some "u1", "n1"⟩, none, none⟩,
       ⟨⟨none, ""⟩, some ⟨some "u2", "n2"⟩, none, none⟩], false⟩] (by decide)).1

/-- Two candidates differ on the (name, url) pair. -/
def distinctPair (a b : Item) : Prop :=
  ¬ (a.name = b.name ∧ a.url = b.url)

theorem dedupAppend_pairwise (acc : List Item) (item : Item)
    (h : acc.Pairwise distinctPair) : (dedupAppend acc item).Pairwise distinctPair := by
  unfold dedupAppend
  split
  · rename_i hcond
    rw [List.pairwise_append]
    refine ⟨h, List.pairwise_singleton _ _, ?_⟩
    intro a ha b hb
    simp only [List.mem_singleton] at hb
    subst hb
    have hany := hcond.2
    rw [List.any_eq_true] at hany
    push_neg at hany
    have := hany a ha
    simpa [distinctPair] using this
  · exact h

theorem harvestCards_pairwise (cfg : LinksConfig) (dirUrl : String)
    (ujoin : String → String → String) (lim : Option Nat) :
    ∀ (cards : List Card) (acc : List Item), acc.Pairwise distinctPair →
      (harvestCards cfg dirUrl ujoin lim acc cards).Pairwise distinctPair
  | [], acc, h => h
  | c :: cs, acc, h => by
    rw [harvestCards]
    split
    · exact h
    · exact harvestCards_pairwise cfg dirUrl ujoin lim cs _
        (dedupAppend_pairwise acc (resolveCard cfg dirUrl ujoin c) h)

theorem paginate_pairwise (cfg : LinksConfig) (dirUrl : String)
    (ujoin : String → String → String) (lim : Option Nat) :
    ∀ (pages : List Page) (acc : List Item) (n : Nat), acc.Pairwise distinctPair →
      (paginate cfg dirUrl ujoin lim acc n pages).1.Pairwise distinctPair
  | [], acc, n, h => h
  | p :: rest, acc, n, h => by
    have hp := harvestCards_pairwise cfg dirUrl ujoin lim p.cards acc h
    rw [paginate]
    split
    · exact hp
    · split
      · split
        · exact hp
        · exact paginate_pairwise cfg dirUrl ujoin lim rest _ (n + 1) hp
      · exact hp

/-- C5: the list returned by get_links never contains two candidates
with an identical (name, url) pair: every appended candidate was
checked against all already-collected candidates on that pair
(scraper.py lines 188-191). -/
theorem get_links_no_duplicate_pairs (cfg : LinksConfig) (dirUrl : String)
    (ujoin : String → String → String) (lim : Option Nat) (pages : List Page) :
    (get_links cfg dirUrl ujoin lim pages).1.Pairwise distinctPair :=
  paginate_pairwise cfg dirUrl ujoin lim pages [] 1 (List.Pairwise.nil)

/-! ### Content store: vector_db.py -/

/-- The ASCII word-character class of the Python regex used by slugify
(vector_db.py line 17).  The model restricts the regex word class to
ASCII; slugify inputs in this development are ASCII. -/
def pyIsWordChar (c : Char) : Bool :=
  (decide (48 ≤ c.toNat) && decide (c.toNat ≤ 57)) ||
  (decide (97 ≤ c.toNat) && decide (c.toNat ≤ 122)) ||
  (decide (65 ≤ c.toNat) && decide (c.toNat ≤ 90)) ||
  c = '_'

/-- The separator class collapsed to hyphens by slugify
(vector_db.py line 18): whitespace, underscore, hyphen. -/
def slugSep (c : Char) : Bool :=
  pyIsSpace c || c = '_' || c = '-'

/-- Collapse every maximal run of separator characters to a single
hyphen (the second re.sub of slugify). -/
def slugCollapse : List Char → List Char
  | [] => []
  | c :: rest =>
    if slugSep c then '-' :: slugCollapse (rest.dropWhile slugSep)
    else c :: slugCollapse rest
termination_by l => l.length
decreasing_by
  · have := (List.dropWhile_sublist (l := rest) slugSep).length_le
    simp only [List.length_cons]
    omega
  · simp only [List.length_cons]
    omega

/-- slugify (vector_db.py lines 13-20): empty input yields "unknown";
otherwise lower-case and strip, drop everything that is not a word
character, whitespace or hyphen, collapse separator runs to single
hyphens, and trim leading and trailing hyphens. -/
def slugify (s : String) : String :=
  if s = "" then "unknown"
  else
    let t1 := pyStrip (s.data.map Char.toLower)
    let t2 := t1.filter fun c => pyIsWordChar c || pyIsSpace c || c = '-'
    let t3 := slugCollapse t2
    let t4 := ((t3.dropWhile (· = '-')).reverse.dropWhile (· = '-')).reverse
    t4.asString

/-- A record as stored by index.upsert_records for a person
(vector_db.py lines 113-134): the id, the embedded text blob, and the
metadata fields of the March Pilot layout. -/
structure StoredRecord where
  id : String
  text : String
  rtype : String
  full_name : String
  phone_number : String
  mobile_number : String
  email : String
  vcard_url : String
  specialty_tags : List String
  bio : String
  url : String
deriving DecidableEq, Repr

/-- The Pinecone index as seen through this client: whether a usable
index handle exists (self.index) and the per-namespace record lists. -/
structure VectorDB where
  hasIndex : Bool
  namespaces : List (Option String × List StoredRecord)
deriving DecidableEq, Repr

/-- The records of one namespace (an absent namespace is empty). -/
def nsRecords (db : VectorDB) (ns : Option String) : List StoredRecord :=
  match db.namespaces.find? (fun kv => kv.1 = ns) with
  | some kv => kv.2
  | none => []

/-- VectorDB.exists (vector_db.py lines 70-84): false without an index
handle; false when the metadata query raises (modelled by queryFails);
otherwise true exactly when some record of the namespace carries the
given URL in its url metadata field (the top_k=1 query with a url
filter returns a non-empty match list exactly then). -/
def existsUrl (db : VectorDB) (queryFails : Bool) (url : String)
    (ns : Option String) : Bool :=
  if !db.hasIndex then false
  else if queryFails then false
  else (nsRecords db ns).any fun r => r.url = url

/-- Pinecone upsert semantics on one namespace: replace the record
with the same id, or append. -/
def upsertIntoNs (recs : List StoredRecord) (r : StoredRecord) : List StoredRecord :=
  if recs.any fun x => x.id = r.id then
    recs.map fun x => if x.id = r.id then r else x
  else recs ++ [r]

/-- index.upsert_records on the modelled store. -/
def upsertRecords (db : VectorDB) (ns : Option String) (r : StoredRecord) : VectorDB :=
  { db with
    namespaces :=
      if db.namespaces.any fun kv => kv.1 = ns then
        db.namespaces.map fun kv => if kv.1 = ns then (kv.1, upsertIntoNs kv.2 r) else kv
      else db.namespaces ++ [(ns, [r])] }

/-! ### The scraped person record (Python dict with heterogeneous values) -/

/-- A value stored in the scraped-data dict: the source mixes strings,
possibly-None strings, string lists and transaction-entry lists in one
dict. -/
inductive Value where
  | vStr (s : String)
  | vOptStr (o : Option String)
  | vStrList (l : List String)
  | vTx (l : List TxEntry)
deriving DecidableEq, Repr

/-- The scraped-data dict, in insertion order. -/
abbrev Data := List (String × Value)

/-- Dict lookup. -/
def dget (d : Data) (k : String) : Option Value :=
  match d.find? (fun kv => kv.1 = k) with
  | some kv => some kv.2
  | none => none

/-- Dict assignment: replace the value of an existing key, else append
(Python dict insertion-order semantics). -/
def dset : Data → String → Value → Data
  | [], k, v => [(k, v)]
  | kv :: rest, k, v => if kv.1 = k then (k, v) :: rest else kv :: dset rest k v

/-- Python d.get(k, dflt) for keys holding strings: the default
applies when the key is missing; the modelled records store strings
under the string keys, so a non-string value also maps to the default. -/
def pyGetStr (d : Data) (k : String) (dflt : String) : String :=
  match dget d k with
  | some (.vStr s) => s
  | some _ => dflt
  | none => dflt

/-- Python d.get(k) for the possibly-None phone fields. -/
def pyGetOptStr (d : Data) (k : String) : Option String :=
  match dget d k with
  | some (.vStr s) => some s
  | some (.vOptStr o) => o
  | _ => none

/-- Python d.get(k, []) for the tag-list field. -/
def pyGetStrList (d : Data) (k : String) : List String :=
  match dget d k with
  | some (.vStrList l) => l
  | _ => []

/-- VectorDB.upsert_person (vector_db.py lines 86-138): no-op without
an index handle; no-op for a record without a URL; re-checks existence
of the URL in the seattle_directory namespace immediately before
writing and returns without any write on a hit; otherwise builds the
text blob, the slug-derived record id (with the URL-slug fallback for
unknown names) and the metadata, and upserts.  The returned flag
records whether a write was performed. -/
def upsert_person (db : VectorDB) (queryFails : Bool) (person : Data) :
    VectorDB × Bool :=
  if !db.hasIndex then (db, false)
  else if pyGetStr person "URL" "" = "" then (db, false)
  else if existsUrl db queryFails (pyGetStr person "URL" "") (some "seattle_directory") then
    (db, false)
  else
    let url := pyGetStr person "URL" ""
    let name := pyStripS
      (pyGetStr person "First Name" "" ++ " " ++ pyGetStr person "Last Name" "")
    let title := pyGetStr person "Title" "N/A"
    let specialties := pyGetStr person "Specialties" "N/A"
    let text_blob := "Broker Name: " ++ name ++ ". Specialty: " ++ specialties ++
      ". Role: " ++ title ++ " at CBRE Seattle."
    let record_id0 := "broker-" ++ slugify name
    let record_id := if record_id0 = "broker-unknown" then "broker-" ++ slugify url
      else record_id0
    let rec0 : StoredRecord :=
      { id := record_id
        text := text_blob
        rtype := "person"
        full_name := name
        phone_number := pyOr (pyGetOptStr person "phone_number") ""
        mobile_number := pyOr (pyGetOptStr person "mobile_phoneNumber") ""
        email := pyGetStr person "Email" ""
        vcard_url := pyGetStr person "vCardURL" ""
        specialty_tags := pyGetStrList person "specialty_tags"
        bio := pyGetStr person "bio_summary" ""
        url := url }
    (upsertRecords db (some "seattle_directory") rec0, true)

/-- C1: when the existence check reports a hit for the record's URL in
the person namespace, upsert_person performs no write: the store state
is unchanged and the write flag is false (vector_db.py lines 96-99:
the duplicate check runs inside upsert_person itself, immediately
before the write). -/
theorem upsert_person_skips_on_hit (db : VectorDB) (q : Bool) (person : Data)
    (h : existsUrl db q (pyGetStr person "URL" "") (some "seattle_directory") = true) :
    upsert_person db q person = (db, false) := by
  have hidx : db.hasIndex = true := by
    cases hB : db.hasIndex with
    | false => rw [existsUrl, hB] at h; simp at h
    | true => rfl
  unfold upsert_person
  rw [if_neg (by simp [hidx])]
  by_cases hurl : pyGetStr person "URL" "" = ""
  · rw [if_pos hurl]
  · rw [if_neg hurl, if_pos h]

/-- Witness for C1: a store already holding the record's URL in the
seattle_directory namespace is left untouched by upsert_person. -/
theorem upsert_person_skips_on_hit_witness :
    upsert_person
      ⟨true, [(some "seattle_directory",
        [⟨"broker-jane-doe", "t", "person", "Jane Doe", "", "", "", "", [], "",
          "http://x"⟩])]⟩
      false [("URL", .vStr "http://x")] =
    (⟨true, [(some "seattle_directory",
        [⟨"broker-jane-doe", "t", "person", "Jane Doe", "", "", "", "", [], "",
          "http://x"⟩])]⟩, false) :=
  upsert_person_skips_on_hit
    ⟨true, [(some "seattle_directory",
      [⟨"broker-jane-doe", "t", "person", "Jane Doe", "", "", "", "", [], "",
        "http://x"⟩])]⟩
    false [("URL", .vStr "http://x")] (by decide)

/-! ### Detail Extractor (person): GenericCrawler.scrape_details
(scraper.py lines 237-643)

The page is modelled by the values its queries and evaluate calls
return.  The JavaScript snippets execute in the browser against the
live DOM; their results enter the Python control flow as plain data,
which is what the environment below carries.  gotoFails models the
navigation try block of lines 268-297 raising (network or timeout
failure). -/

/-- One tel link as collected by the contact-scan script (label from
aria-label, number from the href). -/
structure PhoneItem where
  label : String
  number : String
deriving DecidableEq, Repr

/-- The result of the contact-scan evaluate call (scraper.py lines
319-358). -/
structure ContactResult where
  phone_data : List PhoneItem
  vcard : Option String
  email : Option String
deriving DecidableEq, Repr

/-- The result of the specialties evaluate call (scraper.py lines
501-531); none models the call raising. -/
structure SpecResult where
  specialties : String
  specialty_tags : List String
  bio_summary : String
deriving DecidableEq, Repr

/-- The result of the listings/transactions evaluate call (scraper.py
lines 545-582). -/
structure PropsResult where
  listingsUrl : Option String
  transactions : List String
deriving DecidableEq, Repr

/-- The page environment of one scrape_details call. -/
structure DetailEnv where
  gotoFails : Bool
  heroName : Option String
  heroTitle : Option String
  contact : ContactResult
  rawAddress : Option String
  experience : Option String
  spec : Option SpecResult
  props : PropsResult
deriving DecidableEq, Repr

/-- The initial data dict of scrape_details (scraper.py lines 241-257),
in insertion order. -/
def initDetailData (url : String) : Data :=
  [("URL", .vStr url),
   ("First Name", .vStr ""),
   ("Last Name", .vStr ""),
   ("Title", .vStr ""),
   ("Email", .vStr ""),
   ("Phone", .vStr ""),
   ("Address Line", .vStr ""),
   ("City", .vStr ""),
   ("State", .vStr ""),
   ("Zip", .vStr ""),
   ("Full Address", .vStr ""),
   ("Experience", .vStr ""),
   ("vCardURL", .vStr ""),
   ("LinkedProperties", .vTx []),
   ("ListingsURL", .vStr "")]

/-- The URL normalization of scraper.py lines 258-261: the staging
hostname is rewritten to the production hostname. -/
def normalizeProfileUrl (url : String) : String :=
  if containsSubS "test-www1.cbre.com" url then
    pyReplace url "test-www1.cbre.com" "www.cbre.com"
  else url

/-- The sentinel fill of the fatal-navigation path (scraper.py lines
292-297): every key except URL is set to the unreachable sentinel. -/
def fillSkipped (d : Data) : Data :=
  d.map fun kv => if kv.1 = "URL" then kv else (kv.1, .vStr "SKIPPED (Unreachable)")

/-- Python str.split(" ", 1): split at the first space character
(scraper.py line 305). -/
def splitFirstSpace : List Char → List Char × Option (List Char)
  | [] => ([], none)
  | c :: rest =>
    if c = ' ' then ([], some rest)
    else
      ((splitFirstSpace rest).1.cons c, (splitFirstSpace rest).2)

/-- Step 1 of scrape_details (scraper.py lines 300-315): split the
hero name on the first space into first and last name; take the first
matching designation/title element. -/
def detailStep1 (env : DetailEnv) (d : Data) : Data :=
  let d1 :=
    match env.heroName with
    | none => d
    | some nv =>
      let parts := splitFirstSpace nv.data
      let d' := dset d "First Name" (.vStr parts.1.asString)
      dset d' "Last Name" (.vStr (match parts.2 with
        | some l => l.asString
        | none => ""))
  match env.heroTitle with
  | none => d1
  | some t => dset d1 "Title" (.vStr t)

/-- The mobile-indicating keyword scan of scraper.py line 373. -/
def isMobileLabel (label : String) : Bool :=
  containsSubS "cell" label || containsSubS "mobile" label || containsSubS "handset" label

/-- The phone-classification loop of scraper.py lines 365-376: each
number is normalized, retained in the all-numbers list with duplicates
suppressed, and classified first-wins as mobile or office by its
lowered label. -/
def classifyPhones : List PhoneItem → Option String → Option String → List String →
    Option String × Option String × List String
  | [], office, mobile, nums => (office, mobile, nums)
  | p :: rest, office, mobile, nums =>
    match format_phone (some p.number) with
    | none => classifyPhones rest office mobile nums
    | some n =>
      let nums' := if n ∈ nums then nums else nums ++ [n]
      let label := (p.label.data.map Char.toLower).asString
      if isMobileLabel label then
        classifyPhones rest office (if mobile.isNone then some n else mobile) nums'
      else
        classifyPhones rest (if office.isNone then some n else office) mobile nums'

/-- Step 2 of scrape_details (scraper.py lines 317-387): classify the
scanned tel links, then derive the legacy combined Phone field, the
Email with its Not Found default, and the vCard URL with host
completion for relative paths. -/
def detailStep2 (env : DetailEnv) (d : Data) : Data :=
  let cls := classifyPhones env.contact.phone_data none none []
  let d1 := dset d "phone_number" (.vOptStr cls.1)
  let d2 := dset d1 "mobile_phoneNumber" (.vOptStr cls.2.1)
  let d3 := dset d2 "phone_numbers" (.vStrList cls.2.2)
  let d4 := dset d3 "Phone" (.vStr (if cls.2.2.isEmpty then "Not Found"
    else String.intercalate " | " cls.2.2))
  let d5 := dset d4 "Email" (.vStr (pyOr env.contact.email "Not Found"))
  let d6 :=
    match env.contact.vcard with
    | some v =>
      if v ≠ "" then
        dset d5 "vCardURL" (.vStr (if v.data.head? = some '/' then
          "https://www.cbre.com" ++ v else v))
      else dset d5 "vCardURL" (.vStr "Not Found")
    | none => dset d5 "vCardURL" (.vStr "Not Found")
  d6

/-- The boilerplate phrases stripped from the raw address blob
(scraper.py lines 424-428). -/
def junkTerms : List String :=
  ["Associated Office", "Location", "Get Directions", "Contact",
   "Find Your Perfect Space", "Search Properties", "Search Now",
   "Find My Listings"]

/-- Python str.startswith at String level. -/
def startsWithS (pat s : String) : Bool :=
  pat.data.isPrefixOf s.data

/-- The address-line cleanup of scraper.py lines 430-436: strip each
line, and keep those that are non-empty, not boilerplate, and not
starting with a View-my phrase or a normalized phone. -/
def cleanAddressLines (raw : String) : List String :=
  (((splitOnChar '\n' raw.data).map pyStrip).map List.asString).filter fun s =>
    s ≠ "" && !(junkTerms.contains s) && !(startsWithS "View my" s) &&
      !(startsWithS "+1" s)

/-- The last-comma split of scraper.py line 452 (str.rsplit with one
split): the parts before and after the last separator occurrence. -/
def rsplitLast (sep : Char) : List Char → Option (List Char × List Char)
  | [] => none
  | c :: rest =>
    match rsplitLast sep rest with
    | some (a, b) => some (c :: a, b)
    | none => if c = sep then some ([], rest) else none

/-- Step 3 of scrape_details (scraper.py lines 389-469): the raw
Associated Office blob is fetched only on cbre.com profiles, cleaned,
joined into Full Address; the last cleaned line is parsed as
City, State Zip by splitting on the last comma and then on whitespace
runs, and the preceding lines are joined as the street address. -/
def detailStep3 (env : DetailEnv) (profileUrl : String) (d : Data) : Data :=
  let raw := if containsSubS "cbre.com" profileUrl then pyOr env.rawAddress "" else ""
  let clean_lines := if raw = "" then [] else cleanAddressLines raw
  let d1 := dset d "Full Address"
    (.vStr (if clean_lines.isEmpty then "" else String.intercalate "\n" clean_lines))
  match clean_lines.getLast? with
  | none => d1
  | some last_line =>
    let d2 := dset d1 "Address Line" (.vStr (String.intercalate ", " clean_lines.dropLast))
    match rsplitLast ',' last_line.data with
    | some (before, after) =>
      let d3 := dset d2 "City" (.vStr (pyStrip before).asString)
      let state_zip := (pyStrip after).asString
      let sz_parts := reSplitWs [] state_zip.data
      if sz_parts.length ≥ 2 then
        let d4 := dset d3 "State" (.vStr (sz_parts.get? 0).iget.asString)
        dset d4 "Zip" (.vStr (sz_parts.get? 1).iget.asString)
      else
        dset d3 "State" (.vStr state_zip)
    | none => dset d2 "City" (.vStr last_line)

/-- Steps 4 and 4.5 of scrape_details (scraper.py lines 471-541):
the experience text with its Not Found default (only fetched on
cbre.com profiles), then the specialties evaluate with its exception
fallback filling N/A, empty tags and a truncated bio summary. -/
def detailStep4 (env : DetailEnv) (profileUrl : String) (d : Data) : Data :=
  let exp_val := if containsSubS "cbre.com" profileUrl then pyOr env.experience "Not Found"
    else "Not Found"
  let d1 := dset d "Experience" (.vStr exp_val)
  match env.spec with
  | some r =>
    let d2 := dset d1 "Specialties" (.vStr (if r.specialties = "" then "N/A"
      else r.specialties))
    let d3 := dset d2 "specialty_tags" (.vStrList r.specialty_tags)
    dset d3 "bio_summary" (.vStr (if r.bio_summary ≠ "" then r.bio_summary
      else ((pyGetStr d2 "Experience" "").data.take 500).asString))
  | none =>
    let d2 := dset d1 "Specialties" (.vStr "N/A")
    let d3 := dset d2 "specialty_tags" (.vStrList [])
    dset d3 "bio_summary" (.vStr ((pyGetStr d2 "Experience" "").data.take 500).asString)

/-- Step 5 of scrape_details (scraper.py lines 543-634): the harvested
transaction blobs are parsed by parse_transactions; the listings URL
is stored as returned (possibly None). -/
def detailStep5 (env : DetailEnv) (d : Data) : Data :=
  let d1 := dset d "LinkedProperties" (.vTx (parse_transactions env.props.transactions))
  dset d1 "ListingsURL" (.vOptStr env.props.listingsUrl)

/-- The result of one scrape_details call: the returned data dict, the
content-store state after the call, and whether the store upsert was
invoked. -/
structure ScrapeResult where
  data : Data
  db : Option VectorDB
  upsertCalled : Bool
deriving Repr

/-- GenericCrawler.scrape_details (scraper.py lines 237-643): build
the initial dict, normalize the URL, and either fill the unreachable
sentinels and return immediately when navigation fails (lines 292-297,
before the upsert at lines 639-643 is reached), or run the guarded
extraction steps and pass the record to VectorDB.upsert_person when a
store is configured. -/
def scrape_details (vdb : Option VectorDB) (queryFails : Bool) (profile_url : String)
    (env : DetailEnv) : ScrapeResult :=
  let url := normalizeProfileUrl profile_url
  let d0 := dset (initDetailData profile_url) "URL" (.vStr url)
  if env.gotoFails then
    { data := fillSkipped d0, db := vdb, upsertCalled := false }
  else
    let d1 := detailStep1 env d0
    let d2 := detailStep2 env d1
    let d3 := detailStep3 env url d2
    let d4 := detailStep4 env url d3
    let d5 := detailStep5 env d4
    match vdb with
    | none => { data := d5, db := none, upsertCalled := false }
    | some db =>
      { data := d5
        db := some (upsert_person db queryFails d5).1
        upsertCalled := true }

/-- Every value of the sentinel fill except the URL entry is the
unreachable sentinel, whatever the dict. -/
theorem fillSkipped_values (d : Data) :
    ∀ kv ∈ fillSkipped d, kv.1 ≠ "URL" → kv.2 = .vStr "SKIPPED (Unreachable)" := by
  intro kv hkv hne
  simp only [fillSkipped, List.mem_map] at hkv
  obtain ⟨kv0, _, rfl⟩ := hkv
  by_cases hk : kv0.1 = "URL"
  · rw [if_pos hk] at hne ⊢
    exact absurd hk hne
  · rw [if_neg hk]

/-- C2 amended: when navigation fails entirely, scrape_details returns
(without raising) a record in which every field except URL equals the
sentinel "SKIPPED (Unreachable)" and the URL field keeps the
normalized input URL (scraper.py lines 292-297). -/
theorem scrape_details_unreachable (vdb : Option VectorDB) (q : Bool) (url : String)
    (env : DetailEnv) (h : env.gotoFails = true) :
    (∀ kv ∈ (scrape_details vdb q url env).data, kv.1 ≠ "URL" →
      kv.2 = .vStr "SKIPPED (Unreachable)") ∧
    dget (scrape_details vdb q url env).data "URL" =
      some (.vStr (normalizeProfileUrl url)) := by
  have hres : (scrape_details vdb q url env).data =
      fillSkipped (dset (initDetailData url) "URL" (.vStr (normalizeProfileUrl url))) := by
    simp [scrape_details, h]
  rw [hres]
  refine ⟨fillSkipped_values _, ?_⟩
  have hd0 : dset (initDetailData url) "URL" (.vStr (normalizeProfileUrl url)) =
      ("URL", .vStr (normalizeProfileUrl url)) :: (initDetailData url).drop 1 := by
    simp [initDetailData, dset]
  rw [hd0]
  simp [fillSkipped, dget]

/-- Witness for the amended C2 at a concrete unreachable profile. -/
theorem scrape_details_unreachable_witness :
    (∀ kv ∈ (scrape_details none false "http://u"
        ⟨true, none, none, ⟨[], none, none⟩, none, none, none, ⟨none, []⟩⟩).data,
      kv.1 ≠ "URL" → kv.2 = .vStr "SKIPPED (Unreachable)") ∧
    dget (scrape_details none false "http://u"
        ⟨true, none, none, ⟨[], none, none⟩, none, none, none, ⟨none, []⟩⟩).data "URL" =
      some (.vStr (normalizeProfileUrl "http://u")) :=
  scrape_details_unreachable none false "http://u"
    ⟨true, none, none, ⟨[], none, none⟩, none, none, none, ⟨none, []⟩⟩ rfl

/-- C2 counterexample (to the claim as stated): the sentinel the code
writes is "SKIPPED (Unreachable)" with a capital U, not the claimed
"SKIPPED (unreachable)" (scraper.py line 296): the First Name field of
an unreachable record equals the former and differs from the latter. -/
theorem scrape_details_sentinel_case_counterexample :
    dget (scrape_details none false "http://u"
        ⟨true, none, none, ⟨[], none, none⟩, none, none, none, ⟨none, []⟩⟩).data
        "First Name" = some (.vStr "SKIPPED (Unreachable)") ∧
    Value.vStr "SKIPPED (Unreachable)" ≠ Value.vStr "SKIPPED (unreachable)" := by
  constructor
  · decide
  · decide

/-- C3 counterexample: with vector persistence enabled, a fatal
navigation failure returns the sentinel record without invoking the
store upsert (scraper.py line 297 returns before the upsert at lines
639-643 is reached), contradicting the claim that every return path
upserts. -/
theorem scrape_details_fatal_skips_upsert_counterexample :
    (scrape_details (some ⟨true, []⟩) false "http://u"
      ⟨true, none, none, ⟨[], none, none⟩, none, none, none, ⟨none, []⟩⟩).upsertCalled
      = false := rfl

/-- C3 amended: scrape_details passes the returned record to the
store upsert exactly when navigation succeeded and vector persistence
is enabled; on the fatal-navigation path the record is returned
immediately and the store is left untouched (scraper.py lines 292-297
and 639-643). -/
theorem scrape_details_upsert_iff (vdb : Option VectorDB) (q : Bool) (url : String)
    (env : DetailEnv) :
    (scrape_details vdb q url env).upsertCalled = (!env.gotoFails && vdb.isSome) ∧
    (scrape_details vdb q url env).db =
      (if env.gotoFails then vdb
       else vdb.map fun db => (upsert_person db q (scrape_details vdb q url env).data).1) := by
  cases hg : env.gotoFails with
  | false => cases vdb <;> simp [scrape_details, hg]
  | true => cases vdb <;> simp [scrape_details, hg]

/-! ### Session Controller: GenericCrawler.close_browser
(scraper.py lines 80-94) -/

/-- The four session handles (true = set, false = unset/None). -/
structure BrowserHandles where
  page : Bool
  context : Bool
  browser : Bool
  playwright : Bool
deriving DecidableEq, Repr

/-- Which of the four close calls raise when invoked. -/
structure CloseEnv where
  pageCloseFails : Bool
  contextCloseFails : Bool
  browserCloseFails : Bool
  playwrightStopFails : Bool
deriving DecidableEq, Repr

/-- The outcome of close_browser: normal completion with the final
handles and the trace of close calls performed, or a propagated
exception with the handles as they stood (Python attribute state is
unchanged by a failing close) and the trace up to and including the
failing call. -/
inductive CloseOutcome where
  | ok (st : BrowserHandles) (trace : List String)
  | raised (err : String) (st : BrowserHandles) (trace : List String)
deriving DecidableEq, Repr

/-- GenericCrawler.close_browser (scraper.py lines 80-94): close page,
context, browser, then stop the driver, each guarded only by a
handle-is-set check (there is no exception handling in the source, so
a raising close propagates immediately); only after all four does the
method reset every handle to None. -/
def close_browser (st : BrowserHandles) (env : CloseEnv) : CloseOutcome :=
  let t1 : List String := if st.page then ["page.close"] else []
  if st.page && env.pageCloseFails then .raised "page.close" st t1
  else
    let t2 := t1 ++ (if st.context then ["context.close"] else [])
    if st.context && env.contextCloseFails then .raised "context.close" st t2
    else
      let t3 := t2 ++ (if st.browser then ["browser.close"] else [])
      if st.browser && env.browserCloseFails then .raised "browser.close" st t3
      else
        let t4 := t3 ++ (if st.playwright then ["playwright.stop"] else [])
        if st.playwright && env.playwrightStopFails then .raised "playwright.stop" st t4
        else .ok ⟨false, false, false, false⟩ t4

/-- Which close-call name corresponds to a set handle. -/
def handleSet (st : BrowserHandles) (n : String) : Bool :=
  if n = "page.close" then st.page
  else if n = "context.close" then st.context
  else if n = "browser.close" then st.browser
  else if n = "playwright.stop" then st.playwright
  else false

/-- C9 counterexample: with all four handles set and page.close
raising, close_browser propagates the error after only the page close:
the remaining closes do not run and no handle is reset (scraper.py
lines 80-94 contain no exception handling), contradicting the claimed
swallowing of individual close errors. -/
theorem close_browser_error_propagates_counterexample :
    close_browser ⟨true, true, true, true⟩ ⟨true, false, false, false⟩ =
      .raised "page.close" ⟨true, true, true, true⟩ ["page.close"] := rfl

/-- C9 amended: close_browser closes page, context, browser and the
automation driver in that order (the trace is the order-preserving
filter of the set handles) and resets all four handles whenever no
individual close raises; but an error raised by an individual close
propagates, aborting the remaining closes and the reset, leaving every
handle set (scraper.py lines 80-94). -/
theorem close_browser_spec (st : BrowserHandles) (env : CloseEnv) :
    (match close_browser st env with
     | .ok st' trace =>
        st' = ⟨false, false, false, false⟩ ∧
        trace = ["page.close", "context.close", "browser.close",
          "playwright.stop"].filter (handleSet st)
     | .raised _ st' _ => st' = st) := by
  obtain ⟨p, c, b, pw⟩ := st
  obtain ⟨ep, ec, eb, epw⟩ := env
  cases p <;> cases c <;> cases b <;> cases pw <;>
    cases ep <;> cases ec <;> cases eb <;> cases epw <;>
    first
    | exact ⟨rfl, rfl⟩
    | rfl
